import Mathlib

/-!
Verification development for the ATM10 quest-browser asset pipeline.

The definitions below are a shallow embedding of the JavaScript sources:

* the dependency-free ZIP reader (`findEOCD`, `extractEntry`) of
  `extract_icons.js` (identical in the v2 extractor);
* the catalog stores populated by first-writer-wins registration and the
  final `Object.assign` merge of `main`;
* the block-model texture parsing and indirect-reference resolution of the
  v2 extractor (`resolveTexRef` and the model-resolution loop);
* the atlas builder (`findIconPath`, `buildAtlas`) of the atlas script.

Byte buffers are `List Nat`; JavaScript `buf[i]` reads outside the buffer
yield `undefined`, which compares unequal to every byte and behaves as `0`
in the bitwise reads, so out-of-range reads are modelled by the default
`0` (all signature bytes are non-zero, so this is faithful for both uses).
Stores (plain JS objects used as string maps) are modelled as functions
`String → Option String`; JS truthiness on a looked-up value (`undefined`
or `""` are falsy) is `jsTruthy`.
-/

/-! ### Byte buffers and little-endian reads -/

/-- Read of `buf[i]`: the byte when in range, `0` (a non-matching value
standing for `undefined`) otherwise. -/
def byteAt (buf : List Nat) (i : Nat) : Nat :=
  buf.getD i 0

/-- Embedding of `readUInt16LE`: `b[o] | (b[o+1] << 8)`. -/
def readUInt16LE (b : List Nat) (o : Nat) : Nat :=
  Nat.lor (byteAt b o) (Nat.shiftLeft (byteAt b (o + 1)) 8)

/-- Embedding of `readUInt32LE` (the `>>> 0` is a no-op on byte input). -/
def readUInt32LE (b : List Nat) (o : Nat) : Nat :=
  Nat.lor (byteAt b o)
    (Nat.lor (Nat.shiftLeft (byteAt b (o + 1)) 8)
      (Nat.lor (Nat.shiftLeft (byteAt b (o + 2)) 16)
        (Nat.shiftLeft (byteAt b (o + 3)) 24)))

/-! ### End-of-central-directory scan (`findEOCD`) -/

/-- The test `buf[i]===0x50 && buf[i+1]===0x4b && buf[i+2]===0x05 &&
buf[i+3]===0x06` from `findEOCD`. -/
def sigAtEOCD (buf : List Nat) (i : Nat) : Bool :=
  byteAt buf i == 0x50 && byteAt buf (i + 1) == 0x4b &&
  byteAt buf (i + 2) == 0x05 && byteAt buf (i + 3) == 0x06

/-- The descending loop body of `findEOCD`: check `i`, `i-1`, …, `0`. -/
def eocdScan (buf : List Nat) : Nat → Option Nat
  | 0 => if sigAtEOCD buf 0 then some 0 else none
  | i + 1 => if sigAtEOCD buf (i + 1) then some (i + 1) else eocdScan buf i

/-- Embedding of `findEOCD`: the loop starts at `buf.length - 22`; when
`buf.length < 22` the JS start index is negative and the loop body never
runs, returning `-1` (here `none`). -/
def findEOCD (buf : List Nat) : Option Nat :=
  if buf.length < 22 then none else eocdScan buf (buf.length - 22)

/-! ### Entry extraction (`extractEntry`) -/

/-- Central-directory record as built by `parseZip`. -/
structure ZipEntry where
  name : String
  compression : Nat
  compSize : Nat
  localOffset : Nat
deriving Repr, DecidableEq

/-- Embedding of `extractEntry`. The call to `zlib.inflateRawSync`
(external library) is a parameter `inflateRaw`; the JS `try/catch`
returning `null` on a decompression error is its `Option` result.
`buf.slice` clamps to the buffer end, which is `drop`/`take`. -/
def extractEntry (inflateRaw : List Nat → Option (List Nat))
    (buf : List Nat) (e : ZipEntry) : Option (List Nat) :=
  let lh := e.localOffset
  if lh + 30 > buf.length then none
  else
    let nameLen := readUInt16LE buf (lh + 26)
    let extraLen := readUInt16LE buf (lh + 28)
    let dataStart := lh + 30 + nameLen + extraLen
    let compressed := (buf.drop dataStart).take e.compSize
    if e.compression == 0 then some compressed
    else if e.compression == 8 then inflateRaw compressed
    else none

/-! ### Catalog stores -/

/-- A JS object used as a string-keyed map of relative URL strings. -/
def IconStore : Type := String → Option String

/-- JS truthiness of `store[key]`: `undefined` and `""` are falsy. -/
def jsTruthy : Option String → Bool
  | none => false
  | some s => !s.data.isEmpty

/-- Plain JS assignment `store[key] = v`. -/
def setKey (s : IconStore) (k v : String) : IconStore :=
  fun k' => if k' = k then some v else s k'

/-- Embedding of the registration pattern
`if (!store[key]) store[key] = relUrl;` used everywhere a texture is
registered into a category store. -/
def registerKey (s : IconStore) (k v : String) : IconStore :=
  if jsTruthy (s k) then s else setKey s k v

/-- The store with no keys. -/
def emptyStore : IconStore := fun _ => none

/-- Embedding of `Object.assign({}, blockPaths, itemPaths)`: every own
property of `itemPaths` overrides one of `blockPaths`. -/
def mergeStores (blockPaths itemPaths : IconStore) : IconStore :=
  fun k =>
    match itemPaths k with
    | some v => some v
    | none => blockPaths k

/-! ### String-splitting helpers shared by the resolvers -/

/-- Split a character list at the first occurrence of `sep`
(`s.indexOf(sep)` followed by the two `slice`s); `none` when absent. -/
def splitAtFirst (sep : Char) : List Char → Option (List Char × List Char)
  | [] => none
  | c :: rest =>
    if c = sep then some ([], rest)
    else
      match splitAtFirst sep rest with
      | none => none
      | some (a, b) => some (c :: a, b)

/-- The characters after the last `/` — `name.split('/').pop()`, also
`path.basename`. -/
def lastComp (cs : List Char) : List Char :=
  ((cs.reverse.takeWhile (fun c => c ≠ '/')).reverse)

/-- Remove one trailing `.png` — the `replace(/\.png$/, '')`. -/
def stripPngSuffix (cs : List Char) : List Char :=
  if cs.reverse.take 4 = ['g', 'n', 'p', '.'] then cs.take (cs.length - 4)
  else cs

/-- `id.indexOf(':')` plus the two slices, on `String`s. -/
def strSplitColon (s : String) : Option (String × String) :=
  match splitAtFirst ':' s.toList with
  | none => none
  | some (a, b) => some (String.mk a, String.mk b)

/-! ### Block-model texture parsing (v2 extractor, mod-jar loop) -/

/-- A JSON value as classified by the JS checks: a string, or anything
else (`typeof v === 'string'` fails). -/
inductive JVal where
  | str (s : String)
  | other
deriving Repr, DecidableEq

/-- Property access `tex[n]` on the parsed `textures` object (JSON object
keys are unique, insertion-ordered). -/
def texLookup (tex : List (String × JVal)) (n : String) : Option JVal :=
  match tex.find? (fun p => p.fst = n) with
  | some p => some p.snd
  | none => none

/-- The test `v.startsWith('#')`: for the one-character pattern this is
exactly "the first character is `#`". -/
def startsWithHash (v : String) : Bool :=
  match v.data with
  | [] => false
  | c :: _ => c = '#'

/-- The inner `resolve(names)` closure: first name whose value is a truthy
string not starting with `#`. -/
def resolveFaces (tex : List (String × JVal)) : List String → Option String
  | [] => none
  | n :: rest =>
    match texLookup tex n with
    | some (JVal.str v) =>
      if !v.data.isEmpty && !(startsWithHash v) then some v
      else resolveFaces tex rest
    | _ => resolveFaces tex rest

/-- `Object.values(textures).find(v => typeof v === 'string' &&
!v.startsWith('#'))` — note: no truthiness test on `v` here, so the empty
string can be found. -/
def firstTexValue : List (String × JVal) → Option String
  | [] => none
  | (_, JVal.str s) :: rest =>
    if !(startsWithHash s) then some s else firstTexValue rest
  | (_, JVal.other) :: rest => firstTexValue rest

/-- JS `a || b` on nullable strings: `a` when truthy, else `b`. -/
def jsOr (a b : Option String) : Option String :=
  if jsTruthy a then a else b

/-- The three resolved face references stored into `blockModels[key]`. -/
structure BlockFaces where
  top : String
  side : String
  front : String
deriving Repr, DecidableEq

/-- Embedding of the block-model parse in the mod-jar loop of the v2
extractor: the three priority lists, the `first` fallback, and the
truthiness guard `if (first)` before storing
`{ top: top||first, side: side||first, front: front||first }`. -/
def parseBlockFaces (tex : List (String × JVal)) : Option BlockFaces :=
  let top := resolveFaces tex ["top", "top_face", "up", "cap", "end", "all"]
  let side := resolveFaces tex ["side", "side_face", "texture", "all", "wall"]
  let front := resolveFaces tex ["front", "face", "front_face", "south", "north", "side"]
  let first := jsOr top (jsOr side (jsOr front (firstTexValue tex)))
  match first with
  | some f =>
    if f.data.isEmpty then none
    else some { top := (jsOr top (some f)).getD f
              , side := (jsOr side (some f)).getD f
              , front := (jsOr front (some f)).getD f }
  | none => none

/-! ### Indirect reference resolution (`resolveTexRef` and the model loop) -/

/-- Embedding of `resolveTexRef`: split the reference at the first `:`,
try the two physical candidates `icons/{ns}/{path}.png` and
`icons/{ns}/block/{basename(path)}.png`, return the first existing one.
File existence is the parameter `fsExists`; the absolute `path.join`
followed by the rewrite back to a relative `icons/…` URL is modelled by
working with the relative URL directly. -/
def resolveTexRef (fsExists : String → Bool) (texRef : Option String) :
    Option String :=
  match texRef with
  | none => none
  | some r =>
    if r.data.isEmpty then none
    else
      match splitAtFirst ':' r.toList with
      | none => none
      | some (ns, p) =>
        let c1 := "icons/" ++ String.mk ns ++ "/" ++ String.mk p ++ ".png"
        let c2 := "icons/" ++ String.mk ns ++ "/block/" ++
                  String.mk (lastComp p) ++ ".png"
        if fsExists c1 then some c1
        else if fsExists c2 then some c2
        else none

/-- One iteration of the model-resolution loop of the v2 extractor over
`Object.entries(blockModels)`: skip when `itemPaths[key]` is truthy,
resolve the three faces, bail out when no face resolved, insert the bare
key if absent, then assign the truthy face URLs under the `#top`, `#side`
and `#front` variant keys. -/
def resolveModelEntry (fsExists : String → Bool)
    (itemPaths blockPaths : IconStore) (key : String) (faces : BlockFaces) :
    IconStore :=
  if jsTruthy (itemPaths key) then blockPaths
  else
    let topUrl := resolveTexRef fsExists (some faces.top)
    let sideUrl := resolveTexRef fsExists (some faces.side)
    let frontUrl := resolveTexRef fsExists (some faces.front)
    let anyUrl := jsOr topUrl (jsOr sideUrl frontUrl)
    match anyUrl with
    | none => blockPaths
    | some a =>
      if a.data.isEmpty then blockPaths
      else
        let s1 := if jsTruthy (blockPaths key) then blockPaths
                  else setKey blockPaths key a
        let s2 := if jsTruthy topUrl then
                    setKey s1 (key ++ "#top") (topUrl.getD a)
                  else s1
        let s3 := if jsTruthy sideUrl then
                    setKey s2 (key ++ "#side") (sideUrl.getD a)
                  else s2
        if jsTruthy frontUrl then
          setKey s3 (key ++ "#front") (frontUrl.getD a)
        else s3

/-- Parse one block-model descriptor and, when its faces parse, run the
resolution loop body for it: the end-to-end indirect resolution of one
identifier. -/
def processModel (fsExists : String → Bool)
    (itemPaths blockPaths : IconStore) (key : String)
    (tex : List (String × JVal)) : IconStore :=
  match parseBlockFaces tex with
  | none => blockPaths
  | some faces => resolveModelEntry fsExists itemPaths blockPaths key faces

/-! ### Icon lookup of the atlas builder (`findIconPath`) -/

/-- The loop over the candidate spellings in `findIconPath`: a variant
hits when its manifest entry is truthy and the referenced file exists
(`fs.existsSync` on the joined path, modelled on the stored relative URL);
a truthy entry whose file is missing falls through to the next variant.
The function returns the path of the first hit. -/
def tryVariants (fsExists : String → Bool) (manifest : IconStore) :
    List String → Option String
  | [] => none
  | v :: rest =>
    match manifest v with
    | none => tryVariants fsExists manifest rest
    | some p =>
      if p.data.isEmpty then tryVariants fsExists manifest rest
      else if fsExists p then some p
      else tryVariants fsExists manifest rest

/-- Embedding of `findIconPath` from the atlas script: split the id at the
first `:`, normalize `name` to `basename` (last path component, `.png`
stripped), and try the three spellings `id`, `ns:basename` and
`ns:name_item` — the third uses the raw `name`, not `basename`. -/
def findIconPath (fsExists : String → Bool) (manifest : IconStore)
    (id : String) : Option String :=
  match strSplitColon id with
  | none => none
  | some (ns, name) =>
    let basename := String.mk (stripPngSuffix (lastComp name.toList))
    tryVariants fsExists manifest
      [id, ns ++ ":" ++ basename, ns ++ ":" ++ name ++ "_item"]

/-- Modelled from the spec's words (for comparison with `findIconPath`):
the claimed fallback list `exact id`, `ns:basename`,
`ns:basename_item`. -/
def findIconPathSpec (fsExists : String → Bool) (manifest : IconStore)
    (id : String) : Option String :=
  match strSplitColon id with
  | none => none
  | some (ns, name) =>
    let basename := String.mk (stripPngSuffix (lastComp name.toList))
    tryVariants fsExists manifest
      [id, ns ++ ":" ++ basename, ns ++ ":" ++ basename ++ "_item"]

/-! ### Atlas packing (`buildAtlas`) -/

/-- `const TILE = 16` — the fixed tile size. -/
def TILE : Nat := 16

/-- `const COLS = 64` — the fixed column count. -/
def COLS : Nat := 64

/-- `Math.ceil(count / COLS)` on naturals. -/
def mathCeilDiv (a b : Nat) : Nat := (a + b - 1) / b

/-- The packing loop of `buildAtlas`: the grid position of entry `i` is
computed from the raw loop index before the image is loaded; a failed
load/resample (`try { await sharp… } catch { continue; }`, here the
`none` case of the per-entry load result) contributes neither a composite
tile nor a manifest entry.  The returned list is the icon manifest in
insertion order; the composite placed for a successful entry sits at the
same `(left, top)` as its manifest record. -/
def atlasIconsAux : List (String × Option Unit) → Nat →
    List (String × (Nat × Nat))
  | [], _ => []
  | (id, load) :: rest, i =>
    let left := (i % COLS) * TILE
    let top := (i / COLS) * TILE
    match load with
    | none => atlasIconsAux rest (i + 1)
    | some _ => (id, (left, top)) :: atlasIconsAux rest (i + 1)

/-- The atlas manifest `{ tile, cols, rows, width, height, icons }`. -/
structure AtlasResult where
  tile : Nat
  cols : Nat
  rows : Nat
  width : Nat
  height : Nat
  icons : List (String × (Nat × Nat))
deriving Repr, DecidableEq

/-- Embedding of `buildAtlas`: dimensions derived from the input count,
then the packing loop.  The image-composition batching (flush every 2000
pending composites) re-materializes the canvas but does not influence the
manifest or the computed dimensions, so it is not reflected here; the
per-entry load result (success or decode failure) is the `Option Unit`
component of each input pair. -/
def buildAtlas (iconPaths : List (String × Option Unit)) : AtlasResult :=
  let count := iconPaths.length
  let rows := mathCeilDiv count COLS
  let w := COLS * TILE
  let h := rows * TILE
  { tile := TILE, cols := COLS, rows := rows, width := w, height := h
  , icons := atlasIconsAux iconPaths 0 }

/-! ### Concrete fixtures used by counterexamples and witnesses -/

/-- A file-existence oracle for the indirect-resolution counterexample:
exactly `icons/a/b.png` exists. -/
def fsOnlyAB : String → Bool := fun s => s == "icons/a/b.png"

/-- A file-existence oracle under which every path exists. -/
def fsAll : String → Bool := fun _ => true

/-- Manifest fixture holding only the spelling `a:c_item`. -/
def mfSpellings : IconStore :=
  fun k => if k = "a:c_item" then some ("icons/p.png") else none

/-- Manifest fixture holding only the basename spelling `a:c`. -/
def mfBase : IconStore :=
  fun k => if k = "a:c" then some ("icons/c.png") else none

/-- Block-store fixture for the merge witness. -/
def blockFix : IconStore :=
  fun k =>
    if k = "mod:ore" then some ("icons/mod/block/ore.png")
    else if k = "mod:ore#top" then some ("icons/mod/block/ore_top.png")
    else none

/-- Item-store fixture for the merge witness. -/
def itemFix : IconStore :=
  fun k => if k = "mod:ore" then some ("icons/mod/item/ore.png") else none

/-- Item-store fixture for the registration witness. -/
def gemFix : IconStore :=
  fun k => if k = "mod:gem" then some ("icons/first/gem.png") else none

/-- A 65559-byte buffer whose only end-of-central-directory signature sits
at offset `0`, i.e. before the last `64KB + 22` bytes. -/
def bigBuf : List Nat := [0x50, 0x4b, 0x05, 0x06] ++ List.replicate 65555 0

/-- A hit for a candidate spelling in `findIconPath`: the manifest entry
is a truthy string and the referenced file exists. -/
def variantHit (fsExists : String → Bool) (manifest : IconStore)
    (v : String) : Prop :=
  ∃ p, manifest v = some p ∧ p ≠ "" ∧ fsExists p = true

/-! ## Helper lemmas -/

theorem strAppend_data (s t : String) : (s ++ t).data = s.data ++ t.data := by
  cases s; cases t; rfl

theorem strAppend_left_ne (k a b : String) (h : a.data ≠ b.data) :
    k ++ a ≠ k ++ b := by
  intro he
  apply h
  have hd := congrArg String.data he
  rw [strAppend_data, strAppend_data] at hd
  exact List.append_cancel_left hd

theorem strAppend_ne_self (k a : String) (h : a.data ≠ []) : k ++ a ≠ k := by
  intro he
  have hd := congrArg (fun s => s.data.length) he
  simp only [strAppend_data, List.length_append] at hd
  have hz : a.data.length = 0 := by omega
  exact h (List.length_eq_zero.mp hz)

theorem isEmpty_eq_false_of_ne (p : String) (h : p ≠ "") :
    p.data.isEmpty = false := by
  cases p with
  | mk l =>
    cases l with
    | nil => exact absurd rfl h
    | cons c cs => rfl

theorem jsTruthy_some_of_ne (p : String) (h : p ≠ "") :
    jsTruthy (some p) = true := by
  simp [jsTruthy, isEmpty_eq_false_of_ne p h]

theorem getD_replicate_zero (n i : Nat) :
    (List.replicate n (0 : Nat)).getD i 0 = 0 := by
  induction n generalizing i with
  | zero => simp [List.getD]
  | succ n ih =>
    cases i with
    | zero => simp [List.replicate]
    | succ m => simp only [List.replicate, List.getD_cons_succ]; exact ih m

theorem eocdScan_eq_some_iff (buf : List Nat) (k i : Nat) :
    eocdScan buf k = some i ↔
      (i ≤ k ∧ sigAtEOCD buf i = true ∧
       ∀ j, i < j → j ≤ k → sigAtEOCD buf j = false) := by
  induction k with
  | zero =>
    cases h : sigAtEOCD buf 0 with
    | false =>
      simp only [eocdScan, h, Bool.false_eq_true, if_false]
      constructor
      · intro hc; cases hc
      · rintro ⟨h1, h2, _⟩
        have : i = 0 := by omega
        rw [this] at h2; rw [h2] at h; cases h
    | true =>
      simp only [eocdScan, h, if_true]
      constructor
      · intro hc
        have : i = 0 := by cases hc; rfl
        subst this
        exact ⟨le_refl 0, h, fun j h1 h2 => by omega⟩
      · rintro ⟨h1, _, _⟩
        have : i = 0 := by omega
        rw [this]
  | succ k ih =>
    cases h : sigAtEOCD buf (k + 1) with
    | true =>
      simp only [eocdScan, h, if_true]
      constructor
      · intro hc
        have : i = k + 1 := by cases hc; rfl
        subst this
        exact ⟨le_refl _, h, fun j h1 h2 => by omega⟩
      · rintro ⟨h1, h2, h3⟩
        by_cases hik : i = k + 1
        · rw [hik]
        · have hlt : i < k + 1 := by omega
          have := h3 (k + 1) hlt (le_refl _)
          rw [this] at h; cases h
    | false =>
      simp only [eocdScan, h, Bool.false_eq_true, if_false]
      rw [ih]
      constructor
      · rintro ⟨h1, h2, h3⟩
        refine ⟨by omega, h2, fun j hj1 hj2 => ?_⟩
        by_cases hjk : j = k + 1
        · rw [hjk]; exact h
        · exact h3 j hj1 (by omega)
      · rintro ⟨h1, h2, h3⟩
        have hik : i ≠ k + 1 := by
          intro he; rw [he] at h2; rw [h2] at h; cases h
        exact ⟨by omega, h2, fun j hj1 hj2 => h3 j hj1 (by omega)⟩

theorem eocdScan_eq_none_iff (buf : List Nat) (k : Nat) :
    eocdScan buf k = none ↔ ∀ j, j ≤ k → sigAtEOCD buf j = false := by
  induction k with
  | zero =>
    cases h : sigAtEOCD buf 0 with
    | false =>
      simp only [eocdScan, h, Bool.false_eq_true, if_false]
      constructor
      · intro _ j hj
        have : j = 0 := by omega
        rw [this]; exact h
      · intro _; trivial
    | true =>
      simp only [eocdScan, h, if_true]
      constructor
      · intro hc; cases hc
      · intro hall
        have := hall 0 (le_refl 0)
        rw [this] at h; cases h
  | succ k ih =>
    cases h : sigAtEOCD buf (k + 1) with
    | true =>
      simp only [eocdScan, h, if_true]
      constructor
      · intro hc; cases hc
      · intro hall
        have := hall (k + 1) (le_refl _)
        rw [this] at h; cases h
    | false =>
      simp only [eocdScan, h, Bool.false_eq_true, if_false]
      rw [ih]
      constructor
      · intro hall j hj
        by_cases hjk : j = k + 1
        · rw [hjk]; exact h
        · exact hall j (by omega)
      · intro hall j hj
        exact hall j (by omega)

theorem bigBuf_length : bigBuf.length = 65559 := by
  unfold bigBuf
  rw [List.length_append, List.length_replicate]
  rfl

theorem byteAt_bigBuf_ne (j : Nat) (hj : 1 ≤ j) : byteAt bigBuf j ≠ 0x50 := by
  match j, hj with
  | 1, _ => decide
  | 2, _ => decide
  | 3, _ => decide
  | (m + 4), _ =>
    have hz : byteAt bigBuf (m + 4) = 0 := by
      show (([0x50, 0x4b, 0x05, 0x06] ++ List.replicate 65555 0).getD (m + 4) 0) = 0
      simp only [List.cons_append, List.nil_append, List.getD_cons_succ]
      exact getD_replicate_zero 65555 m
    omega

theorem sigAtEOCD_bigBuf_false (j : Nat) (hj : 1 ≤ j) :
    sigAtEOCD bigBuf j = false := by
  have h := byteAt_bigBuf_ne j hj
  unfold sigAtEOCD
  have hb : (byteAt bigBuf j == 0x50) = false := by
    cases hbe : byteAt bigBuf j == 0x50
    · rfl
    · exact absurd (beq_iff_eq.mp hbe) h
  simp [hb]

theorem sigAtEOCD_bigBuf_zero : sigAtEOCD bigBuf 0 = true := by decide

theorem findEOCD_bigBuf : findEOCD bigBuf = some 0 := by
  have hne : ¬ bigBuf.length < 22 := by rw [bigBuf_length]; omega
  unfold findEOCD
  rw [if_neg hne, bigBuf_length]
  show eocdScan bigBuf 65537 = some 0
  rw [eocdScan_eq_some_iff]
  exact ⟨Nat.zero_le _, sigAtEOCD_bigBuf_zero,
    fun j h1 _ => sigAtEOCD_bigBuf_false j h1⟩

theorem atlasIconsAux_filterMap (L : List (String × Option Unit)) (i : Nat) :
    atlasIconsAux L i =
      (List.enumFrom i L).filterMap
        (fun p => p.2.2.map
          (fun _ => (p.2.1, ((p.1 % 64) * 16, (p.1 / 64) * 16)))) := by
  induction L generalizing i with
  | nil => rfl
  | cons hd tl ih =>
    obtain ⟨id, load⟩ := hd
    cases load with
    | none =>
      simp only [atlasIconsAux, List.enumFrom, List.filterMap_cons,
        Option.map_none', ih, COLS, TILE]
    | some u =>
      simp only [atlasIconsAux, List.enumFrom, List.filterMap_cons,
        Option.map_some', ih, COLS, TILE]

theorem atlasIconsAux_map_of_all (L : List (String × Option Unit)) (i : Nat)
    (h : ∀ p ∈ L, p.2.isSome) :
    atlasIconsAux L i =
      (List.enumFrom i L).map
        (fun p => (p.2.1, ((p.1 % 64) * 16, (p.1 / 64) * 16))) := by
  induction L generalizing i with
  | nil => rfl
  | cons hd tl ih =>
    obtain ⟨id, load⟩ := hd
    cases load with
    | none =>
      have := h (id, none) (List.mem_cons_self _ _)
      simp at this
    | some u =>
      have htl : ∀ p ∈ tl, p.2.isSome := fun p hp => h p (List.mem_cons_of_mem _ hp)
      simp only [atlasIconsAux, List.enumFrom, List.map_cons, ih _ htl, COLS, TILE]

theorem mem_atlasIconsAux (L : List (String × Option Unit)) (i : Nat)
    (id : String) (x y : Nat) (h : (id, (x, y)) ∈ atlasIconsAux L i) :
    ∃ j, i ≤ j ∧ j < i + L.length ∧ x = (j % 64) * 16 ∧ y = (j / 64) * 16 := by
  induction L generalizing i with
  | nil => simp [atlasIconsAux] at h
  | cons hd tl ih =>
    obtain ⟨id', load⟩ := hd
    cases load with
    | none =>
      obtain ⟨j, hj1, hj2, hj3⟩ := ih (i + 1) (by simpa [atlasIconsAux] using h)
      exact ⟨j, by omega, by simp at hj2 ⊢; omega, hj3⟩
    | some u =>
      simp only [atlasIconsAux, List.mem_cons] at h
      rcases h with heq | hmem
      · refine ⟨i, le_refl i, by simp only [List.length_cons]; omega, ?_, ?_⟩
        · have := congrArg (fun p => p.2.1) heq
          simpa [COLS, TILE] using this
        · have := congrArg (fun p => p.2.2) heq
          simpa [COLS, TILE] using this
      · obtain ⟨j, hj1, hj2, hj3⟩ := ih (i + 1) hmem
        exact ⟨j, by omega, by simp at hj2 ⊢; omega, hj3⟩

theorem tryVariants_cons_hit (fsExists : String → Bool) (m : IconStore)
    (v : String) (rest : List String) (h : variantHit fsExists m v) :
    tryVariants fsExists m (v :: rest) = m v := by
  obtain ⟨p, hp, hne, hex⟩ := h
  simp [tryVariants, hp, isEmpty_eq_false_of_ne p hne, hex]

theorem ne_empty_of_isEmpty_false (p : String) (h : p.data.isEmpty = false) :
    p ≠ "" := by
  intro he
  rw [he] at h
  exact absurd h (by decide)

theorem tryVariants_cons_miss (fsExists : String → Bool) (m : IconStore)
    (v : String) (rest : List String) (h : ¬ variantHit fsExists m v) :
    tryVariants fsExists m (v :: rest) = tryVariants fsExists m rest := by
  cases hp : m v with
  | none => simp [tryVariants, hp]
  | some p =>
    cases hemp : p.data.isEmpty with
    | true => simp [tryVariants, hp, hemp]
    | false =>
      cases hex : fsExists p with
      | false => simp [tryVariants, hp, hemp, hex]
      | true =>
        exact absurd ⟨p, hp, ne_empty_of_isEmpty_false p hemp, hex⟩ h

theorem strAppend_png_ne_empty (x : String) : x ++ ".png" ≠ "" := by
  intro he
  have hd := congrArg String.data he
  rw [strAppend_data] at hd
  have h2 : (".png" : String).data = [] := (List.append_eq_nil.mp hd).2
  exact absurd h2 (by decide)

theorem resolveTexRef_ne_empty (fsExists : String → Bool) (r : Option String)
    (u : String) (h : resolveTexRef fsExists r = some u) : u ≠ "" := by
  cases r with
  | none => simp [resolveTexRef] at h
  | some s =>
    simp only [resolveTexRef] at h
    by_cases hs : s.data.isEmpty = true
    · rw [if_pos hs] at h; cases h
    · rw [if_neg hs] at h
      cases hsp : splitAtFirst ':' s.toList with
      | none => rw [hsp] at h; cases h
      | some nsp =>
        obtain ⟨ns, p⟩ := nsp
        rw [hsp] at h
        simp only at h
        split at h
        · cases h; exact strAppend_png_ne_empty _
        · split at h
          · cases h; exact strAppend_png_ne_empty _
          · cases h

theorem parseBlockFaces_side_only (v : String) (h1 : v.data.isEmpty = false)
    (h2 : startsWithHash v = false) :
    parseBlockFaces [("side", JVal.str v)] = some ⟨v, v, v⟩ := by
  simp +decide [parseBlockFaces, resolveFaces, texLookup, firstTexValue,
    jsOr, jsTruthy, h1, h2]

theorem setKey_same (s : IconStore) (k v : String) : setKey s k v k = some v := by
  simp [setKey]

theorem setKey_other (s : IconStore) (k v k' : String) (h : k' ≠ k) :
    setKey s k v k' = s k' := by
  simp [setKey, h]

theorem resolveModelEntry_all_resolved (fsExists : String → Bool)
    (itemPaths blockPaths : IconStore) (key f1 f2 f3 u : String)
    (hitem : itemPaths key = none) (hblock : blockPaths key = none)
    (h1 : resolveTexRef fsExists (some f1) = some u)
    (h2 : resolveTexRef fsExists (some f2) = some u)
    (h3 : resolveTexRef fsExists (some f3) = some u) :
    resolveModelEntry fsExists itemPaths blockPaths key ⟨f1, f2, f3⟩ =
      setKey (setKey (setKey (setKey blockPaths key u)
        (key ++ "#top") u) (key ++ "#side") u) (key ++ "#front") u := by
  have hu : u ≠ "" := resolveTexRef_ne_empty fsExists (some f1) u h1
  unfold resolveModelEntry
  simp only [hitem, h1, h2, h3]
  simp [jsOr, jsTruthy, isEmpty_eq_false_of_ne u hu, hblock]

/-! ## Claim theorems -/

/-- C1 (amended): for an identifier with no direct texture whose
block-model textures object contains only a `side` reference, indirect
resolution writes the bare key and all three variant keys `#top`, `#side`
and `#front` into the block store, all mapping to the same resolved path —
the parse backfills the missing faces with the side reference (`side` also
appears in the front-face priority list, and `top`/`front` fall back to
`first`), so the resolution loop assigns every variant key. -/
theorem C1_side_only_resolution (fsExists : String → Bool)
    (itemPaths blockPaths : IconStore) (key v u : String)
    (hitem : itemPaths key = none) (hblock : blockPaths key = none)
    (hv : v.data.isEmpty = false) (hhash : startsWithHash v = false)
    (hres : resolveTexRef fsExists (some v) = some u) :
    processModel fsExists itemPaths blockPaths key
      [("side", JVal.str v)] key = some u ∧
    processModel fsExists itemPaths blockPaths key
      [("side", JVal.str v)] (key ++ "#top") = some u ∧
    processModel fsExists itemPaths blockPaths key
      [("side", JVal.str v)] (key ++ "#side") = some u ∧
    processModel fsExists itemPaths blockPaths key
      [("side", JVal.str v)] (key ++ "#front") = some u := by
  have hst : processModel fsExists itemPaths blockPaths key
      [("side", JVal.str v)] =
      setKey (setKey (setKey (setKey blockPaths key u)
        (key ++ "#top") u) (key ++ "#side") u) (key ++ "#front") u := by
    unfold processModel
    rw [parseBlockFaces_side_only v hv hhash]
    exact resolveModelEntry_all_resolved fsExists itemPaths blockPaths
      key v v v u hitem hblock hres hres hres
  rw [hst]
  have d1 : key ≠ key ++ "#front" :=
    (strAppend_ne_self key "#front" (by decide)).symm
  have d2 : key ≠ key ++ "#side" :=
    (strAppend_ne_self key "#side" (by decide)).symm
  have d3 : key ≠ key ++ "#top" :=
    (strAppend_ne_self key "#top" (by decide)).symm
  have d4 : key ++ "#top" ≠ key ++ "#front" :=
    strAppend_left_ne key "#top" "#front" (by decide)
  have d5 : key ++ "#top" ≠ key ++ "#side" :=
    strAppend_left_ne key "#top" "#side" (by decide)
  have d6 : key ++ "#side" ≠ key ++ "#front" :=
    strAppend_left_ne key "#side" "#front" (by decide)
  refine ⟨?_, ?_, ?_, ?_⟩
  · rw [setKey_other _ _ _ _ d1, setKey_other _ _ _ _ d2,
      setKey_other _ _ _ _ d3, setKey_same]
  · rw [setKey_other _ _ _ _ d4, setKey_other _ _ _ _ d5, setKey_same]
  · rw [setKey_other _ _ _ _ d6, setKey_same]
  · rw [setKey_same]

/-- C1 witness: concrete side-only model `{ side: "a:b" }` for key `m:x`
with `icons/a/b.png` present, exercising the amended theorem. -/
theorem C1_side_only_resolution_witness :
    processModel fsOnlyAB emptyStore emptyStore "m:x"
      [("side", JVal.str "a:b")] "m:x" = some ("icons/a/b.png") ∧
    processModel fsOnlyAB emptyStore emptyStore "m:x"
      [("side", JVal.str "a:b")] ("m:x" ++ "#top") = some ("icons/a/b.png") ∧
    processModel fsOnlyAB emptyStore emptyStore "m:x"
      [("side", JVal.str "a:b")] ("m:x" ++ "#side") = some ("icons/a/b.png") ∧
    processModel fsOnlyAB emptyStore emptyStore "m:x"
      [("side", JVal.str "a:b")] ("m:x" ++ "#front") = some ("icons/a/b.png") :=
  C1_side_only_resolution fsOnlyAB emptyStore emptyStore "m:x" "a:b"
    "icons/a/b.png" rfl rfl (by decide) (by decide) (by decide)

/-- C1 counterexample: for the same concrete side-only model the claim
asserts that no `#top` and no `#front` keys are written, but the code
writes both. -/
theorem C1_counterexample :
    ¬ (processModel fsOnlyAB emptyStore emptyStore "m:x"
         [("side", JVal.str "a:b")] ("m:x#top") = none ∧
       processModel fsOnlyAB emptyStore emptyStore "m:x"
         [("side", JVal.str "a:b")] ("m:x#front") = none) := by
  decide

/-- C2: for an input list of `n` icons the packer's manifest fields are
`tile = 16`, `cols = 64`, `rows = ceil(n/64)`, `width = 64*16`,
`height = ceil(n/64)*16`, and (when every source image loads) tile `i` is
placed at pixel offset `((i % 64)*16, (i / 64)*16)` in input order. -/
theorem C2_atlas_grid (L : List (String × Option Unit)) :
    (buildAtlas L).tile = 16 ∧
    (buildAtlas L).cols = 64 ∧
    (buildAtlas L).rows = (L.length + 63) / 64 ∧
    (buildAtlas L).width = 64 * 16 ∧
    (buildAtlas L).height = ((L.length + 63) / 64) * 16 ∧
    ((∀ p ∈ L, p.2.isSome) →
      (buildAtlas L).icons =
        L.enum.map (fun p => (p.2.1, ((p.1 % 64) * 16, (p.1 / 64) * 16)))) := by
  refine ⟨rfl, rfl, rfl, rfl, rfl, fun h => ?_⟩
  show atlasIconsAux L 0 = _
  rw [atlasIconsAux_map_of_all L 0 h]
  rfl

/-- C2 witness: three icons that all load, at column count 64: positions
`(0,0)`, `(16,0)`, `(32,0)`, one row, canvas `1024×16`. -/
theorem C2_atlas_grid_witness :
    (buildAtlas [("a:x", some ()), ("a:y", some ()), ("a:z", some ())]).icons =
      [("a:x", (0, 0)), ("a:y", (16, 0)), ("a:z", (32, 0))] :=
  ((C2_atlas_grid [("a:x", some ()), ("a:y", some ()), ("a:z", some ())]).2.2.2.2.2
    (by decide)).trans (by decide)

/-- C8: a failed load contributes no icon entry (and no composited tile),
a successful entry at input index `i` sits at
`((i % 64)*16, (i / 64)*16)` — a pure function of the input-list index,
unchanged by which other entries failed. -/
theorem C8_skip_stability (L : List (String × Option Unit)) :
    (buildAtlas L).icons =
      L.enum.filterMap
        (fun p => p.2.2.map
          (fun _ => (p.2.1, ((p.1 % 64) * 16, (p.1 / 64) * 16)))) := by
  show atlasIconsAux L 0 = _
  rw [atlasIconsAux_filterMap L 0]
  rfl

/-- C9: every coordinate pair in the atlas manifest is a non-negative
multiple of the tile size that keeps a full 16×16 tile inside the
canvas. -/
theorem C9_icons_in_bounds (L : List (String × Option Unit)) (id : String)
    (x y : Nat) (h : (id, (x, y)) ∈ (buildAtlas L).icons) :
    x % 16 = 0 ∧ y % 16 = 0 ∧
    x + 16 ≤ (buildAtlas L).width ∧ y + 16 ≤ (buildAtlas L).height := by
  obtain ⟨j, hj0, hjlen, hx, hy⟩ := mem_atlasIconsAux L 0 id x y h
  have hmod : j % 64 < 64 := Nat.mod_lt j (by norm_num)
  have hw : (buildAtlas L).width = 1024 := rfl
  have hh : (buildAtlas L).height = ((L.length + 63) / 64) * 16 := rfl
  refine ⟨?_, ?_, ?_, ?_⟩
  · rw [hx]; exact Nat.mul_mod_left _ _
  · rw [hy]; exact Nat.mul_mod_left _ _
  · rw [hx, hw]; omega
  · rw [hy, hh]
    have hdiv : j / 64 + 1 ≤ (L.length + 63) / 64 := by
      have h2 : (j + 64) / 64 = j / 64 + 1 := Nat.add_div_right j (by norm_num)
      have h3 : (j + 64) / 64 ≤ (L.length + 63) / 64 :=
        Nat.div_le_div_right (by omega)
      omega
    calc (j / 64) * 16 + 16 = (j / 64 + 1) * 16 := by ring
    _ ≤ ((L.length + 63) / 64) * 16 := Nat.mul_le_mul_right 16 hdiv

/-- C9 witness: the single-icon atlas places `a:x` at `(0,0)`, inside the
`1024×16` canvas. -/
theorem C9_icons_in_bounds_witness :
    0 % 16 = 0 ∧ 0 % 16 = 0 ∧
    0 + 16 ≤ (buildAtlas [("a:x", some ())]).width ∧
    0 + 16 ≤ (buildAtlas [("a:x", some ())]).height :=
  C9_icons_in_bounds [("a:x", some ())] "a:x" 0 0 (by decide)

/-- C3 (amended): `findEOCD` scans backward from `length - 22` through the
entire buffer with no 64KB window limit: it returns the tail-most
signature position `≤ length - 22`, and `NotFound` exactly when no
signature occurs at any position `≤ length - 22`. -/
theorem C3_eocd_scan (buf : List Nat) (hlen : 22 ≤ buf.length) :
    (∀ i, findEOCD buf = some i ↔
      (i ≤ buf.length - 22 ∧ sigAtEOCD buf i = true ∧
       ∀ j, i < j → j ≤ buf.length - 22 → sigAtEOCD buf j = false)) ∧
    (findEOCD buf = none ↔
      ∀ j, j ≤ buf.length - 22 → sigAtEOCD buf j = false) := by
  have hne : ¬ buf.length < 22 := by omega
  constructor
  · intro i
    unfold findEOCD
    rw [if_neg hne]
    exact eocdScan_eq_some_iff buf (buf.length - 22) i
  · unfold findEOCD
    rw [if_neg hne]
    exact eocdScan_eq_none_iff buf (buf.length - 22)

/-- C3 witness: a minimal 22-byte buffer whose signature sits at offset 0
(the only position the scan visits), found by the characterization. -/
theorem C3_eocd_scan_witness :
    findEOCD ([0x50, 0x4b, 0x05, 0x06] ++ List.replicate 18 0) = some 0 :=
  ((C3_eocd_scan ([0x50, 0x4b, 0x05, 0x06] ++ List.replicate 18 0)
      (by decide)).1 0).mpr
    ⟨by decide, by decide, fun j h1 h2 => by
      have hl : ([0x50, 0x4b, 0x05, 0x06] ++ List.replicate 18 0).length = 22 := by
        decide
      omega⟩

/-- C3 counterexample: a 65559-byte buffer whose only signature occurrence
is at offset 0 — strictly before the last `64KB + 22` bytes — for which
the claim demands `NotFound`, yet the code returns offset 0: the scan has
no window limit. -/
theorem C3_counterexample :
    bigBuf.length = 65559 ∧
    sigAtEOCD bigBuf 0 = true ∧
    (∀ j, 1 ≤ j → sigAtEOCD bigBuf j = false) ∧
    findEOCD bigBuf = some 0 :=
  ⟨bigBuf_length, sigAtEOCD_bigBuf_zero, sigAtEOCD_bigBuf_false, findEOCD_bigBuf⟩

/-- C4: catalog registration is insert-if-absent — registering under a key
already holding a (non-empty, as every stored relative URL is) value
leaves the store unchanged; registering the same key/path pair twice
equals registering it once; and after two archives register the same key
in scan order, the store holds the first archive's path. -/
theorem C4_register_first_writer_wins :
    (∀ (s : IconStore) (k v w : String), s k = some w → w ≠ "" →
      registerKey s k v = s) ∧
    (∀ (s : IconStore) (k v : String),
      registerKey (registerKey s k v) k v = registerKey s k v) ∧
    (∀ (k p1 p2 : String), p1 ≠ "" →
      registerKey (registerKey emptyStore k p1) k p2 k = some p1) := by
  refine ⟨?_, ?_, ?_⟩
  · intro s k v w h hw
    unfold registerKey
    rw [h, jsTruthy_some_of_ne w hw, if_pos rfl]
  · intro s k v
    unfold registerKey
    cases ht : jsTruthy (s k) with
    | true => simp [ht]
    | false =>
      simp only [ht, Bool.false_eq_true, if_false, setKey_same]
      cases hv : jsTruthy (some v) with
      | true => simp [hv]
      | false =>
        simp only [Bool.false_eq_true, if_false]
        funext k'
        by_cases hk : k' = k
        · rw [hk, setKey_same, setKey_same]
        · simp only [setKey_other _ _ _ _ hk]
  · intro k p1 p2 hp1
    have h1 : registerKey emptyStore k p1 = setKey emptyStore k p1 := by
      unfold registerKey
      have he : jsTruthy (emptyStore k) = false := rfl
      rw [he]
      simp only [Bool.false_eq_true, if_false]
    have h2 : registerKey (setKey emptyStore k p1) k p2 =
        setKey emptyStore k p1 := by
      unfold registerKey
      rw [setKey_same, jsTruthy_some_of_ne p1 hp1]
      simp
    rw [h1, h2, setKey_same]

/-- C4 witness: a second registration of `mod:gem` does not touch the
first archive's path, and a double registration collapses to one. -/
theorem C4_register_first_writer_wins_witness :
    registerKey gemFix "mod:gem" "icons/second/gem.png" = gemFix ∧
    registerKey (registerKey emptyStore "mod:gem" "icons/first/gem.png")
      "mod:gem" "icons/second/gem.png" "mod:gem" = some ("icons/first/gem.png") :=
  ⟨C4_register_first_writer_wins.1 gemFix "mod:gem" "icons/second/gem.png"
      "icons/first/gem.png" (by decide) (by decide),
   C4_register_first_writer_wins.2.2 "mod:gem" "icons/first/gem.png"
      "icons/second/gem.png" (by decide)⟩

/-- C5: the canonical manifest is the block store overlaid by the item
store — an item entry wins whenever present, an absent item entry passes
the block value (in particular block-only and variant-suffixed keys)
through unchanged, and a key is present in the manifest iff it is present
in either store. -/
theorem C5_merge_item_over_block (blockPaths itemPaths : IconStore)
    (k : String) :
    (∀ v, itemPaths k = some v →
      mergeStores blockPaths itemPaths k = some v) ∧
    (itemPaths k = none →
      mergeStores blockPaths itemPaths k = blockPaths k) ∧
    ((mergeStores blockPaths itemPaths k).isSome ↔
      (itemPaths k).isSome ∨ (blockPaths k).isSome) := by
  cases h : itemPaths k with
  | none =>
    refine ⟨fun v hv => Option.noConfusion hv, fun _ => ?_, ?_⟩
    · unfold mergeStores; rw [h]
    · unfold mergeStores; rw [h]; simp
  | some v =>
    refine ⟨fun w hw => ?_, fun hn => Option.noConfusion hn, ?_⟩
    · unfold mergeStores; rw [h]; exact hw
    · unfold mergeStores; rw [h]; simp

/-- C5 witness: `mod:ore` sits in both stores and resolves to the item
path; the variant key `mod:ore#top` is block-only and passes through. -/
theorem C5_merge_item_over_block_witness :
    mergeStores blockFix itemFix "mod:ore" = some ("icons/mod/item/ore.png") ∧
    mergeStores blockFix itemFix "mod:ore#top" = blockFix "mod:ore#top" :=
  ⟨(C5_merge_item_over_block blockFix itemFix "mod:ore").1
      "icons/mod/item/ore.png" (by decide),
   (C5_merge_item_over_block blockFix itemFix "mod:ore#top").2.1 (by decide)⟩

/-- C6: extraction of a Stored (method 0) entry returns exactly the
`compSize` bytes at the entry's data offset unchanged (exactly that many
when the region is in bounds), and extraction of a Deflate (method 8)
entry whose data region holds a raw-deflated payload returns the original
pre-compression bytes, for any inflate implementation satisfying the
raw-deflate round-trip contract. -/
theorem C6_extract_roundtrip :
    (∀ (inflateRaw : List Nat → Option (List Nat)) (buf : List Nat)
       (e : ZipEntry),
      e.compression = 0 → e.localOffset + 30 ≤ buf.length →
      extractEntry inflateRaw buf e =
        some ((buf.drop (e.localOffset + 30 +
          readUInt16LE buf (e.localOffset + 26) +
          readUInt16LE buf (e.localOffset + 28))).take e.compSize) ∧
      (e.localOffset + 30 + readUInt16LE buf (e.localOffset + 26) +
          readUInt16LE buf (e.localOffset + 28) + e.compSize ≤ buf.length →
        ((buf.drop (e.localOffset + 30 +
          readUInt16LE buf (e.localOffset + 26) +
          readUInt16LE buf (e.localOffset + 28))).take e.compSize).length
          = e.compSize)) ∧
    (∀ (inflateRaw : List Nat → Option (List Nat))
       (deflateRaw : List Nat → List Nat),
      (∀ d, inflateRaw (deflateRaw d) = some d) →
      ∀ (buf : List Nat) (e : ZipEntry) (d : List Nat),
        e.compression = 8 → e.localOffset + 30 ≤ buf.length →
        (buf.drop (e.localOffset + 30 +
          readUInt16LE buf (e.localOffset + 26) +
          readUInt16LE buf (e.localOffset + 28))).take e.compSize
          = deflateRaw d →
        extractEntry inflateRaw buf e = some d) := by
  constructor
  · intro inflateRaw buf e hc hb
    constructor
    · simp only [extractEntry]
      rw [if_neg (by omega : ¬ e.localOffset + 30 > buf.length), hc]
      simp
    · intro hin
      simp only [List.length_take, List.length_drop]
      omega
  · intro inflateRaw deflateRaw hrt buf e d hc hb hslice
    simp only [extractEntry]
    rw [if_neg (by omega : ¬ e.localOffset + 30 > buf.length), hc, hslice]
    simpa using hrt d

/-- C6 witness: a synthetic stored entry returns its literal payload, and
a synthetic raw-deflate entry (with `id`/`some` as the compressor pair,
which satisfies the round-trip contract) returns the original bytes. -/
theorem C6_extract_roundtrip_witness :
    extractEntry (fun _ => none) (List.replicate 30 0 ++ [1, 2, 3])
      ⟨"", 0, 3, 0⟩ = some [1, 2, 3] ∧
    extractEntry (fun bs => some bs) (List.replicate 30 0 ++ [9, 8])
      ⟨"", 8, 2, 0⟩ = some [9, 8] := by
  constructor
  · exact ((C6_extract_roundtrip.1 (fun _ => none)
      (List.replicate 30 0 ++ [1, 2, 3]) ⟨"", 0, 3, 0⟩ rfl
      (by decide)).1).trans (by decide)
  · exact C6_extract_roundtrip.2 (fun bs => some bs) (fun bs => bs)
      (fun d => rfl) (List.replicate 30 0 ++ [9, 8]) ⟨"", 8, 2, 0⟩ [9, 8]
      rfl (by decide) (by decide)

/-- C10: an entry whose compression method is neither 0 (Stored) nor
8 (Deflate) extracts to `null`, exactly like a corrupt one. -/
theorem C10_unsupported_compression
    (inflateRaw : List Nat → Option (List Nat)) (buf : List Nat)
    (e : ZipEntry) (h0 : e.compression ≠ 0) (h8 : e.compression ≠ 8) :
    extractEntry inflateRaw buf e = none := by
  simp only [extractEntry]
  by_cases hb : e.localOffset + 30 > buf.length
  · rw [if_pos hb]
  · rw [if_neg hb]
    have hc0 : (e.compression == 0) = false := by simpa using h0
    have hc8 : (e.compression == 8) = false := by simpa using h8
    rw [hc0, hc8]
    simp

/-- C10 witness: a method-99 entry extracts to `null`. -/
theorem C10_unsupported_compression_witness :
    extractEntry (fun bs => some bs) (List.replicate 30 0 ++ [1])
      ⟨"", 99, 1, 0⟩ = none :=
  C10_unsupported_compression (fun bs => some bs)
    (List.replicate 30 0 ++ [1]) ⟨"", 99, 1, 0⟩ (by decide) (by decide)

/-- C7 counterexample: for `a:b/c.png` with a manifest holding only the
claimed third spelling `a:c_item` (basename-normalized) and every file
present, the claimed lookup finds `icons/p.png` but the code finds
nothing — its third spelling is `a:b/c.png_item`, built from the raw
name. -/
theorem C7_counterexample :
    findIconPath fsAll mfSpellings "a:b/c.png" = none ∧
    findIconPathSpec fsAll mfSpellings "a:b/c.png" = some ("icons/p.png") := by
  decide

/-- C7 (amended): the lookup tries exactly three spellings in order —
the exact id, `ns:basename` (last path component, `.png` stripped), and
`ns:name_item` built from the raw, unnormalized name — and returns the
first spelling whose manifest entry is truthy and points at an existing
file, or nothing when none does. -/
theorem C7_lookup_fallback_order (fsExists : String → Bool)
    (manifest : IconStore) (id ns name : String)
    (h : strSplitColon id = some (ns, name)) :
    (variantHit fsExists manifest id →
      findIconPath fsExists manifest id = manifest id) ∧
    (¬ variantHit fsExists manifest id →
      variantHit fsExists manifest
        (ns ++ ":" ++ String.mk (stripPngSuffix (lastComp name.toList))) →
      findIconPath fsExists manifest id =
        manifest (ns ++ ":" ++ String.mk (stripPngSuffix (lastComp name.toList)))) ∧
    (¬ variantHit fsExists manifest id →
      ¬ variantHit fsExists manifest
        (ns ++ ":" ++ String.mk (stripPngSuffix (lastComp name.toList))) →
      variantHit fsExists manifest (ns ++ ":" ++ name ++ "_item") →
      findIconPath fsExists manifest id =
        manifest (ns ++ ":" ++ name ++ "_item")) ∧
    (¬ variantHit fsExists manifest id →
      ¬ variantHit fsExists manifest
        (ns ++ ":" ++ String.mk (stripPngSuffix (lastComp name.toList))) →
      ¬ variantHit fsExists manifest (ns ++ ":" ++ name ++ "_item") →
      findIconPath fsExists manifest id = none) := by
  have hf : findIconPath fsExists manifest id = tryVariants fsExists manifest
      [id, ns ++ ":" ++ String.mk (stripPngSuffix (lastComp name.toList)),
       ns ++ ":" ++ name ++ "_item"] := by
    unfold findIconPath
    rw [h]
  refine ⟨fun h1 => ?_, fun h1 h2 => ?_, fun h1 h2 h3 => ?_,
    fun h1 h2 h3 => ?_⟩
  · rw [hf, tryVariants_cons_hit _ _ _ _ h1]
  · rw [hf, tryVariants_cons_miss _ _ _ _ h1, tryVariants_cons_hit _ _ _ _ h2]
  · rw [hf, tryVariants_cons_miss _ _ _ _ h1,
      tryVariants_cons_miss _ _ _ _ h2, tryVariants_cons_hit _ _ _ _ h3]
  · rw [hf, tryVariants_cons_miss _ _ _ _ h1,
      tryVariants_cons_miss _ _ _ _ h2, tryVariants_cons_miss _ _ _ _ h3]
    rfl

/-- C7 witness: `a:b/c.png` misses on the exact id and hits on the
basename spelling `a:c`. -/
theorem C7_lookup_fallback_order_witness :
    findIconPath fsAll mfBase "a:b/c.png" = mfBase "a:c" := by
  have hmiss : ¬ variantHit fsAll mfBase "a:b/c.png" := by
    rintro ⟨p, hp, -, -⟩
    have hn : mfBase "a:b/c.png" = none := by decide
    rw [hn] at hp
    exact Option.noConfusion hp
  have hhit : variantHit fsAll mfBase "a:c" :=
    ⟨"icons/c.png", by decide, by decide, rfl⟩
  exact ((C7_lookup_fallback_order fsAll mfBase "a:b/c.png" "a" "b/c.png"
    (by decide)).2.1 hmiss (by exact hhit))
